import Mathlib

/-
  Verification of the meta_parser single-header C library
  (src/meta_parser.h, v1.2.0): a line-oriented schema-to-C-struct
  code generator.

  Shallow embedding conventions:
  * C strings are modelled as Lean String values (the schema files are
    ASCII text; no NUL bytes occur inside lines).
  * The fixed-size C buffers are modelled by the same explicit
    truncation bounds the C code uses: sscanf conversions use the
    width 63, snprintf into a char[64] keeps at most 63 characters,
    and the two fixed capacities (objects array, fields array) are the
    literal 50 = MAX_FIELDS from the source.
  * stderr diagnostics are modelled structurally: each fprintf(stderr,...)
    call site becomes one constructor of Diag.
  * fprintf calls of the emitter are modelled structurally: each format
    string of meta_write_object becomes one constructor of OutLine,
    carrying exactly the arguments the C passes to fprintf.
  * fopen failures are modelled by an Option input and a Bool for the
    output stream; the int return of meta_parse is modelled as Int.
-/

namespace MetaGen

/-- Model of the C character classification used by sscanf
(isspace: space, tab, newline, vertical tab, form feed, carriage return). -/
def isSpace (c : Char) : Bool :=
  c = ' ' || c = '\t' || c = '\n' || c = '\x0b' || c = '\x0c' || c = '\r'

/-- Model of _meta_contains from src/meta_parser.h lines 38-51: the C
builds a 256-entry lookup table from chars and then scans str; the net
effect is: does str contain any character of chars. -/
def meta_contains (str chars : String) : Bool :=
  str.data.any (fun c => chars.data.contains c)

/-- Model of _meta_starts_with from src/meta_parser.h lines 53-64: true
iff str is nonempty and its first character occurs in chars. -/
def meta_starts_with (str chars : String) : Bool :=
  match str.data with
  | [] => false
  | c :: _ => chars.data.contains c

/-- The valid_c_types table from src/meta_parser.h lines 189-224
(the NULL terminator of the C array is the end of the Lean list). -/
def valid_c_types : List String :=
  [ "char", "signed char", "unsigned char",
    "short", "short int", "signed short", "signed short int",
    "unsigned short", "unsigned short int",
    "int", "signed int", "unsigned int",
    "long", "long int", "signed long", "signed long int",
    "unsigned long", "unsigned long int",
    "long long", "long long int", "signed long long", "signed long long int",
    "unsigned long long", "unsigned long long int",
    "float", "double", "long double",
    "_Bool",
    "size_t" ]

/-- HASH_SIZE from src/meta_parser.h line 226. -/
def HASH_SIZE : Nat := 64

/-- The djb2 hash of src/meta_parser.h lines 229-236.  The C uses an
unsigned long accumulator, modelled as Nat reduced mod 2 ^ 64 at every
step; the final reduction mod HASH_SIZE is the return value.  Since
HASH_SIZE divides 2 ^ 64 the width of the C accumulator does not affect
the result.  All table entries and schema tokens are ASCII, so the char
to int promotion in the C is the plain code point. -/
def hashStep (h : Nat) (c : Char) : Nat :=
  (h * 33 + c.toNat) % (2 ^ 64)

def hash (s : String) : Nat :=
  (s.data.foldl hashStep 5381) % HASH_SIZE

/-- Reading slot i of the static validCTypes[HASH_SIZE][4] array; a
bucket is the dense list of its non-NULL entries. -/
def nthBucket : List (List String) → Nat → List String
  | [], _ => []
  | b :: _, 0 => b
  | _ :: t, n + 1 => nthBucket t n

/-- Writing slot i of the bucket array. -/
def setNth : List (List String) → Nat → List String → List (List String)
  | [], _, _ => []
  | _ :: t, 0, b => b :: t
  | h :: t, n + 1, b => h :: setNth t n b

/-- One insertion step of the init loop of meta_is_valid_c_type
(src/meta_parser.h lines 250-260): the entry goes into the first NULL
slot of its bucket; with dense buckets that is an append, and a bucket
already holding 4 entries silently drops the newcomer. -/
def bucketInsert (b : List String) (s : String) : List String :=
  if b.length < 4 then b ++ [s] else b

/-- The fully initialized static hash table of meta_is_valid_c_type:
64 buckets, each entry of valid_c_types inserted once in order. -/
def validCTypesTable : List (List String) :=
  valid_c_types.foldl
    (fun t s => setNth t (hash s) (bucketInsert (nthBucket t (hash s)) s))
    (List.replicate HASH_SIZE [])

/-- Model of meta_is_valid_c_type, src/meta_parser.h lines 244-273: the
lookup scans the bucket of hash input while slots are non-NULL and
compares with strcmp; on a dense bucket that is list membership. -/
def meta_is_valid_c_type (input : String) : Bool :=
  (nthBucket validCTypesTable (hash input)).contains input

/-- Specification-side definition (for the refinement claim): a linear
scan of the valid_c_types list, as the NULL-terminated C array would be
searched entry by entry. -/
def linearScanValidCType (input : String) : Bool :=
  valid_c_types.contains input

/- ------------- hash table versus linear scan, helper lemmas ------------- -/

theorem nthBucket_mem {t : List (List String)} {i : Nat} {x : String}
    (h : x ∈ nthBucket t i) : ∃ b ∈ t, x ∈ b := by
  induction t generalizing i with
  | nil => simp [nthBucket] at h
  | cons b rest ih =>
    cases i with
    | zero => exact ⟨b, List.mem_cons_self b rest, h⟩
    | succ n =>
      obtain ⟨b2, hb2, hx⟩ := ih (i := n) h
      exact ⟨b2, List.mem_cons_of_mem _ hb2, hx⟩

theorem table_sound : ∀ b ∈ validCTypesTable, ∀ x ∈ b, x ∈ valid_c_types := by
  decide

theorem table_complete : ∀ s ∈ valid_c_types, meta_is_valid_c_type s = true := by
  decide

/-- The hash-table membership test agrees with the linear scan on every
input string: shared helper used by several claim theorems. -/
theorem valid_c_type_iff (s : String) :
    meta_is_valid_c_type s = true ↔ s ∈ valid_c_types := by
  constructor
  · intro h
    have hx : s ∈ nthBucket validCTypesTable (hash s) :=
      List.mem_of_elem_eq_true h
    obtain ⟨b, hb, hsb⟩ := nthBucket_mem hx
    exact table_sound b hb s hsb
  · intro h
    exact table_complete s h

theorem valid_c_type_eq_false_iff (s : String) :
    meta_is_valid_c_type s = false ↔ s ∉ valid_c_types := by
  rw [← valid_c_type_iff]
  cases h : meta_is_valid_c_type s <;> simp

/- ----------------------------- data model ----------------------------- -/

/-- meta_field, src/meta_parser.h lines 97-102.  The two char[64]
buffers hold the scanned name (at most 63 characters, enforced by the
sscanf width) and the resolved type string. -/
structure meta_field where
  name : String
  type : String
  name_valid : Bool
  type_valid : Bool
deriving DecidableEq

/-- meta_object, src/meta_parser.h lines 104-108.  field_count is the
length of the fields list; the C capacity MAX_FIELDS = 50 is enforced
at the insertion site in meta_parse_field. -/
structure meta_object where
  name : String
  fields : List meta_field
deriving DecidableEq

/-- MAX_FIELDS, src/meta_parser.h line 83 (the unused
META_PARSER_MAX_FIELDS = 32 of line 94 never appears in the code; both
the objects array and the fields array use MAX_FIELDS = 50). -/
def MAX_FIELDS : Nat := 50

/-- The stderr diagnostics, one constructor per fprintf(stderr, ...)
call site of src/meta_parser.h:
* objectListFull: line 134, unconditional;
* fieldCountExceeded: line 288, unconditional, carries the object name;
* unresolvedType: line 321, only under META_LOG_CONSOLE, carries the
  original type token and the field name. -/
inductive Diag where
  | objectListFull : Diag
  | fieldCountExceeded (objName : String) : Diag
  | unresolvedType (type name : String) : Diag
deriving DecidableEq

/-- The generated output, one constructor per fprintf(out, ...) call
site, carrying exactly the arguments the C passes:
* header: the fixed auto-generated banner of line 388;
* structOpen n: line 345, "typedef struct <n>Data" and opening brace;
* member t n: line 348, a live member line "<t> <n>;";
* errType t n orig: lines 350-356, the commented member line with the
  unresolved-or-invalid-type diagnostic quoting orig (the C passes
  fields[i].type for both t and orig);
* errName t n: lines 358-363, the commented member line with the
  special-characters-or-numbers diagnostic;
* structClose n: line 366, closing brace and "<n>Data;". -/
inductive OutLine where
  | header : OutLine
  | structOpen (name : String) : OutLine
  | member (type name : String) : OutLine
  | errType (type name orig : String) : OutLine
  | errName (type name : String) : OutLine
  | structClose (name : String) : OutLine
deriving DecidableEq

/- ----------------------------- tokenizing ----------------------------- -/

/-- The whitespace skipping a %s conversion performs before reading. -/
def skipSpaces : List Char → List Char
  | [] => []
  | c :: r => if isSpace c then skipSpaces r else c :: r

/-- A %63s conversion body: read at most n non-whitespace characters,
returning the token and the unconsumed rest. -/
def takeToken : Nat → List Char → List Char × List Char
  | _, [] => ([], [])
  | 0, l => ([], l)
  | n + 1, c :: r =>
    if isSpace c then ([], c :: r)
    else
      let p := takeToken n r
      (c :: p.1, p.2)

/-- Model of sscanf(line, "%63s :: %63s", name, type) == 2 from
src/meta_parser.h line 295: first token (width 63), then the format
whitespace, the two literal colon characters, more whitespace, and the
second token (width 63).  Any failure before the second assignment
makes sscanf return less than 2; trailing input after the second token
is irrelevant.  Returns the two tokens on success. -/
def scanField (line : String) : Option (String × String) :=
  let p1 := takeToken 63 (skipSpaces line.data)
  if p1.1.isEmpty then none
  else
    match skipSpaces p1.2 with
    | ':' :: ':' :: r =>
      let p2 := takeToken 63 (skipSpaces r)
      if p2.1.isEmpty then none
      else some (String.mk p1.1, String.mk p2.1)
    | _ => none

/-- Model of sscanf(line, "obj :: %63s \x7b", name) == 1 from
src/meta_parser.h line 166: the literal obj, format whitespace, the two
literal colons, whitespace, then the name token.  sscanf returns 1 as
soon as the name is assigned; whether the trailing brace matches does
not change the return value, so it is not examined. -/
def scanObjStart (line : String) : Option String :=
  match line.data with
  | 'o' :: 'b' :: 'j' :: r0 =>
    match skipSpaces r0 with
    | ':' :: ':' :: r1 =>
      let p := takeToken 63 (skipSpaces r1)
      if p.1.isEmpty then none else some (String.mk p.1)
    | _ => none
  | _ => none

/-- Model of strncmp(line, "obj ::", 6) == 0 from src/meta_parser.h
line 394: the line starts with the six characters o, b, j, space,
colon, colon. -/
def strncmpObj : List Char → Bool
  | 'o' :: 'b' :: 'j' :: ' ' :: ':' :: ':' :: _ => true
  | _ => false

/-- snprintf into a char[64] buffer keeps at most 63 characters. -/
def take63 (s : String) : String := String.mk (s.data.take 63)

/- ------------------------- parsing operations ------------------------- -/

/-- meta_state_append, src/meta_parser.h lines 130-136: append the
object to the registry if fewer than MAX_FIELDS objects are stored,
otherwise report the overflow on stderr and drop the object. -/
def meta_state_append (st : List meta_object) (obj : meta_object) :
    List meta_object × List Diag :=
  if st.length < MAX_FIELDS then (st ++ [obj], [])
  else (st, [Diag.objectListFull])

/-- meta_parse_init, src/meta_parser.h lines 141-143: reset the
registry. -/
def meta_parse_init : List meta_object := []

/-- meta_trim_line, src/meta_parser.h lines 151-154: advance a local
copy of the pointer over spaces and tabs and report whether the line is
then empty.  The pointer is passed by value, so the caller never
observes the trimmed position; only this emptiness test is returned. -/
def dropSpaceTab : List Char → List Char
  | ' ' :: r => dropSpaceTab r
  | '\t' :: r => dropSpaceTab r
  | l => l

def meta_trim_line (line : String) : Bool :=
  (dropSpaceTab line.data).isEmpty

/-- meta_parse_object_start, src/meta_parser.h lines 165-172: on a
successful header scan the object gets the scanned name and zero
fields, is appended to the registry (the append may overflow), and 1 is
returned regardless of whether the append succeeded.  Returns the
parsed object (the C writes it through the pointer), the new registry
and the stderr output. -/
def meta_parse_object_start (st : List meta_object) (line : String) :
    Option meta_object × List meta_object × List Diag :=
  match scanObjStart line with
  | some nm =>
    let obj : meta_object := ⟨nm, []⟩
    let p := meta_state_append st obj
    (some obj, p.1, p.2)
  | none => (none, st, [])

/-- meta_is_object_type, src/meta_parser.h lines 180-187: linear scan
of the registry comparing the type with each object name by strcmp. -/
def meta_is_object_type (st : List meta_object) (type : String) : Bool :=
  st.any (fun o => o.name == type)

/-- meta_parse_field, src/meta_parser.h lines 284-330.
* A line whose first character is the hash mark is skipped (line 285).
* At MAX_FIELDS fields the capacity error goes to stderr and nothing is
  stored (lines 287-290); this happens before tokenization.
* Otherwise the line is tokenized (line 295); on failure nothing
  happens and 0 is returned.
* name_valid starts at 0 from the memset of the enclosing object and
  becomes 1 exactly under the three checks of lines 296-301.
* The type is resolved (lines 303-317): a registry hit synthesizes the
  name with the Data suffix through snprintf into the char[64] buffer;
  otherwise the loop over valid_c_types copies the original token into
  the type buffer via strncpy on every iteration and sets type_valid
  exactly when meta_is_valid_c_type accepts the token, so its net
  effect is type := token and type_valid := meta_is_valid_c_type token
  (valid_c_types is nonempty, so the copy always runs).
* Under META_LOG_CONSOLE an unresolved type is also reported on stderr
  with the original token (lines 319-323).
Arguments: registry, the META_LOG_CONSOLE flag, the object being
filled, the line.  Returns the updated object, the C return value as a
Bool, and the stderr output. -/
def meta_parse_field (st : List meta_object) (lc : Bool)
    (obj : meta_object) (line : String) :
    meta_object × Bool × List Diag :=
  if line.data.head? = some '#' then (obj, true, [])
  else if MAX_FIELDS ≤ obj.fields.length then
    (obj, false, [Diag.fieldCountExceeded obj.name])
  else
    match scanField line with
    | some (nm, ty) =>
      let nv := !meta_contains nm "!#@$%^&*()"
                && !meta_starts_with nm "1234567890"
                && !meta_is_valid_c_type nm
      let isObj := meta_is_object_type st ty
      let rtype := if isObj then take63 (ty ++ "Data") else ty
      let tv := if isObj then true else meta_is_valid_c_type ty
      let dgs := if lc && !tv then [Diag.unresolvedType ty nm] else []
      ({ obj with fields := obj.fields ++ [⟨nm, rtype, nv, tv⟩] }, true, dgs)
    | none => (obj, false, [])

/-- The per-field branch of the emitter loop, src/meta_parser.h lines
346-365: a live member line when both flags hold, the type diagnostic
whenever type_valid is false, and the name diagnostic in the remaining
case (type valid, name invalid). -/
def emitField (f : meta_field) : OutLine :=
  if f.type_valid && f.name_valid then OutLine.member f.type f.name
  else if !f.type_valid then OutLine.errType f.type f.name f.type
  else OutLine.errName f.type f.name

/-- meta_write_object, src/meta_parser.h lines 344-367: the opening
typedef line, one output line per stored field, the closing line.  The
object name is used as scanned; no check of any kind is applied to
it. -/
def meta_write_object (obj : meta_object) : List OutLine :=
  OutLine.structOpen obj.name
    :: obj.fields.map emitField
    ++ [OutLine.structClose obj.name]

/-- The loop state of meta_parse: registry, current object buffer, the
in_object flag, the output written so far, the stderr output so far. -/
structure ParseSt where
  registry : List meta_object
  obj : meta_object
  in_object : Bool
  out : List OutLine
  log : List Diag
deriving DecidableEq

/-- One iteration of the fgets loop of meta_parse, src/meta_parser.h
lines 390-411, on one line (the line carries its trailing newline, as
fgets delivers it):
* blank check through meta_trim_line (line 391) — note the line itself
  is not changed, so all following comparisons see the untrimmed line;
* header detection by strncmp on the untrimmed line (line 394): emit
  the previous object if one is open, zero the buffer, parse the
  header — in_object is the return value of meta_parse_object_start;
* otherwise, while in an object, a line containing a closing brace
  anywhere (strstr, line 403) emits the object and leaves it;
* otherwise, while in an object, the line goes to meta_parse_field
  (its return value is ignored);
* otherwise the line is ignored. -/
def processLine (lc : Bool) (s : ParseSt) (line : String) : ParseSt :=
  if meta_trim_line line then s
  else if strncmpObj line.data then
    let out1 := if s.in_object then s.out ++ meta_write_object s.obj else s.out
    match meta_parse_object_start s.registry line with
    | (some o, st2, dgs) => ⟨st2, o, true, out1, s.log ++ dgs⟩
    | (none, st2, dgs) => ⟨st2, ⟨"", []⟩, false, out1, s.log ++ dgs⟩
  else if s.in_object && line.data.contains '}' then
    ⟨s.registry, s.obj, false, s.out ++ meta_write_object s.obj, s.log⟩
  else if s.in_object then
    let r := meta_parse_field s.registry lc s.obj line
    ⟨s.registry, r.1, true, s.out, s.log ++ r.2.2⟩
  else s

/-- The whole fgets loop of meta_parse, src/meta_parser.h lines
383-411, starting from a given registry (the global state is NOT reset
by meta_parse itself), a zeroed object buffer and the fixed banner
line.  After the loop the function closes the streams and returns: an
object still open at end of input is not written out. -/
def meta_parse_lines (lc : Bool) (registry : List meta_object)
    (lines : List String) : ParseSt :=
  lines.foldl (processLine lc) ⟨registry, ⟨"", []⟩, false, [OutLine.header], []⟩

/-- meta_parse, src/meta_parser.h lines 376-416.  The input stream is
an Option: none models fopen failure, some gives the lines fgets
delivers.  outOpenable models whether the output fopen succeeds.  The
result is the C int return value together with the generated output
lines. -/
def meta_parse (inF : Option (List String)) (outOpenable : Bool)
    (lc : Bool) (registry : List meta_object) : Int × List OutLine :=
  match inF with
  | none => (-1, [])
  | some lines =>
    if outOpenable then (0, (meta_parse_lines lc registry lines).out)
    else (-1, [])

/- --------------------------- helper lemmas ---------------------------- -/

theorem meta_is_object_type_iff (st : List meta_object) (ty : String) :
    meta_is_object_type st ty = true ↔ ∃ o ∈ st, o.name = ty := by
  simp [meta_is_object_type, List.any_eq_true, beq_iff_eq]

/-- Characterization of a successful field parse: whenever
meta_parse_field extends the field list by one field f, the line
tokenized into two tokens nm and ty, f carries nm as its name, the
name flag is exactly the three-way check, and the type flag and stored
type are given by the registry hit or the primitive-table test. -/
theorem parse_field_new_field (st : List meta_object) (lc : Bool)
    (obj : meta_object) (line : String) (f : meta_field)
    (happ : (meta_parse_field st lc obj line).1.fields = obj.fields ++ [f]) :
    ∃ nm ty, scanField line = some (nm, ty) ∧ f.name = nm ∧
      f.name_valid = (!meta_contains nm "!#@$%^&*()"
                      && !meta_starts_with nm "1234567890"
                      && !meta_is_valid_c_type nm) ∧
      ((meta_is_object_type st ty = true ∧ f.type = take63 (ty ++ "Data")
          ∧ f.type_valid = true)
       ∨ (meta_is_object_type st ty = false ∧ f.type = ty
          ∧ f.type_valid = meta_is_valid_c_type ty)) := by
  unfold meta_parse_field at happ
  by_cases h1 : line.data.head? = some '#'
  · rw [if_pos h1] at happ
    simp at happ
  · rw [if_neg h1] at happ
    by_cases h2 : MAX_FIELDS ≤ obj.fields.length
    · rw [if_pos h2] at happ
      simp at happ
    · rw [if_neg h2] at happ
      cases hscan : scanField line with
      | none =>
        rw [hscan] at happ
        simp at happ
      | some p =>
        obtain ⟨nm, ty⟩ := p
        rw [hscan] at happ
        simp only at happ
        have hf : f = ⟨nm,
            (if meta_is_object_type st ty then take63 (ty ++ "Data") else ty),
            (!meta_contains nm "!#@$%^&*()"
              && !meta_starts_with nm "1234567890"
              && !meta_is_valid_c_type nm),
            (if meta_is_object_type st ty then true
              else meta_is_valid_c_type ty)⟩ := by
          have h3 := List.append_cancel_left happ
          simpa using h3.symm
        refine ⟨nm, ty, rfl, ?_, ?_, ?_⟩
        · rw [hf]
        · rw [hf]
        · cases hobj : meta_is_object_type st ty with
          | true => exact Or.inl ⟨rfl, by rw [hf]; simp [hobj], by rw [hf]; simp [hobj]⟩
          | false => exact Or.inr ⟨rfl, by rw [hf]; simp [hobj], by rw [hf]; simp [hobj]⟩

theorem meta_contains_eq_false_iff (s chars : String) :
    meta_contains s chars = false ↔ ∀ c ∈ s.data, c ∉ chars.data := by
  simp [meta_contains, List.any_eq_true, List.contains, List.elem_iff]

theorem meta_starts_with_eq_false_iff (s chars : String) :
    meta_starts_with s chars = false ↔
      ∀ c, s.data.head? = some c → c ∉ chars.data := by
  unfold meta_starts_with
  cases h : s.data with
  | nil => simp [h]
  | cons c r => simp [h, List.contains, List.elem_iff]

theorem meta_parse_lines_append_one (lc : Bool) (reg : List meta_object)
    (lines : List String) (l : String) :
    meta_parse_lines lc reg (lines ++ [l]) =
      processLine lc (meta_parse_lines lc reg lines) l := by
  simp [meta_parse_lines, List.foldl_append]

/- ----------------------------- the claims ----------------------------- -/

/-- C1: the emitter has no reserved-name check at all.  On the schema
that declares an object named int with one field, the generated output
is a live typedef with a live member line and no diagnostic of any
kind, contradicting the documented behaviour (README: only a
diagnostic comment and a commented-out empty skeleton). -/
theorem c1_reserved_name_object_emitted_live :
    (meta_parse_lines false [] ["obj :: int \x7b\n", "var :: int\n", "\x7d\n"]).out
      = [OutLine.header, OutLine.structOpen "int",
         OutLine.member "intData" "var", OutLine.structClose "int"]
    ∧ (meta_parse_lines false []
        ["obj :: int \x7b\n", "var :: int\n", "\x7d\n"]).log = [] := by
  decide

/-- C2 counterexample: an input whose object header is never followed
by a closing brace.  At end of input the parser is still in the
IN_OBJECT state holding the accumulated field, yet the output contains
only the banner: the in-progress object is dropped, not emitted. -/
theorem c2_counterexample :
    (meta_parse_lines false [] ["obj :: Player \x7b\n", "health :: int\n"]).out
      = [OutLine.header]
    ∧ (meta_parse_lines false []
        ["obj :: Player \x7b\n", "health :: int\n"]).in_object = true
    ∧ (meta_parse_lines false []
        ["obj :: Player \x7b\n", "health :: int\n"]).obj
      = ⟨"Player", [⟨"health", "int", true, true⟩]⟩ := by
  decide

/-- C2 amended: end of input while in the IN_OBJECT state discards the
in-progress object; nothing of it reaches the output.  Equivalently:
appending one closing-brace line to any input extends the output by
exactly the block of the pending object when the parser was left
IN_OBJECT, and by nothing otherwise. -/
theorem c2_amended_unclosed_object_dropped (lc : Bool)
    (reg : List meta_object) (lines : List String) :
    (meta_parse_lines lc reg (lines ++ ["\x7d\n"])).out =
      (meta_parse_lines lc reg lines).out ++
        (if (meta_parse_lines lc reg lines).in_object then
            meta_write_object (meta_parse_lines lc reg lines).obj
          else []) := by
  rw [meta_parse_lines_append_one]
  have h1 : meta_trim_line "\x7d\n" = false := by decide
  have h2 : strncmpObj ("\x7d\n").data = false := by decide
  have h3 : ("\x7d\n").data.contains '}' = true := by decide
  cases hio : (meta_parse_lines lc reg lines).in_object with
  | true => simp [processLine, h1, h2, h3, hio]
  | false => simp [processLine, h1, h2, h3, hio]

/-- C3: the state machine does NOT evaluate its transitions on a
whitespace-stripped line.  meta_trim_line receives the line pointer by
value, so the caller keeps the untrimmed line, and the strncmp header
test fails on an indented header.  Concretely: an indented header line
for object B is silently ignored — B is neither opened, nor
registered, nor emitted — while the claim (and the in/out doc comment
of meta_trim_line) says it opens an object exactly as an unindented
header does. -/
theorem c3_indented_header_ignored :
    (meta_parse_lines false []
        ["obj :: A \x7b\n", "\x7d\n", "  obj :: B \x7b\n", "x :: int\n", "\x7d\n"]).out
      = [OutLine.header, OutLine.structOpen "A", OutLine.structClose "A"]
    ∧ (meta_parse_lines false []
        ["obj :: A \x7b\n", "\x7d\n", "  obj :: B \x7b\n", "x :: int\n", "\x7d\n"]).registry
      = [⟨"A", []⟩]
    ∧ strncmpObj ("  obj :: B \x7b\n").data = false := by
  decide

/-- C4: a field appended by meta_parse_field has type_valid set iff its
declared type token is a primitive-table entry or the name of an object
present in the registry at that moment (the registry argument st). -/
theorem c4_type_valid_iff (st : List meta_object) (lc : Bool)
    (obj : meta_object) (line : String) (nm ty : String) (f : meta_field)
    (hscan : scanField line = some (nm, ty))
    (happ : (meta_parse_field st lc obj line).1.fields = obj.fields ++ [f]) :
    f.type_valid = true ↔
      (ty ∈ valid_c_types ∨ ∃ o ∈ st, o.name = ty) := by
  obtain ⟨nm2, ty2, hscan2, hname, hnv, hres⟩ :=
    parse_field_new_field st lc obj line f happ
  rw [hscan] at hscan2
  simp only [Option.some.injEq, Prod.mk.injEq] at hscan2
  obtain ⟨hn, ht⟩ := hscan2
  rw [← ht] at hres
  rcases hres with ⟨hobj, _, htv⟩ | ⟨hobj, _, htv⟩
  · rw [htv]
    simp only [true_iff]
    exact Or.inr ((meta_is_object_type_iff st ty).mp hobj)
  · rw [htv, valid_c_type_iff]
    constructor
    · exact fun h => Or.inl h
    · rintro (h | h)
      · exact h
      · rw [(meta_is_object_type_iff st ty).mpr h] at hobj
        simp at hobj

/-- C4 witness: with only Player registered, a field typed Enemy is
marked invalid by the iff. -/
theorem c4_witness :
    (⟨"enemy", "Enemy", true, false⟩ : meta_field).type_valid = true ↔
      ("Enemy" ∈ valid_c_types ∨
        ∃ o ∈ [(⟨"Player", []⟩ : meta_object)], o.name = "Enemy") :=
  c4_type_valid_iff [⟨"Player", []⟩] false ⟨"World", []⟩ "enemy :: Enemy\n"
    "enemy" "Enemy" ⟨"enemy", "Enemy", true, false⟩ (by decide) (by decide)

/-- C5: a field appended by meta_parse_field has name_valid set iff the
name contains no character of the forbidden set, does not start with a
digit, and is not a primitive-table spelling. -/
theorem c5_name_valid_iff (st : List meta_object) (lc : Bool)
    (obj : meta_object) (line : String) (f : meta_field)
    (happ : (meta_parse_field st lc obj line).1.fields = obj.fields ++ [f]) :
    f.name_valid = true ↔
      ((∀ c ∈ f.name.data, c ∉ ("!#@$%^&*()" : String).data)
        ∧ (∀ c, f.name.data.head? = some c → c ∉ ("1234567890" : String).data)
        ∧ f.name ∉ valid_c_types) := by
  obtain ⟨nm, ty, _, hname, hnv, _⟩ :=
    parse_field_new_field st lc obj line f happ
  subst hname
  rw [hnv]
  rw [Bool.and_eq_true, Bool.and_eq_true, Bool.not_eq_true', Bool.not_eq_true',
    Bool.not_eq_true']
  rw [meta_contains_eq_false_iff, meta_starts_with_eq_false_iff,
    valid_c_type_eq_false_iff]
  constructor
  · rintro ⟨⟨h1, h2⟩, h3⟩
    exact ⟨h1, h2, h3⟩
  · rintro ⟨h1, h2, h3⟩
    exact ⟨⟨h1, h2⟩, h3⟩

/-- C5 witness: the field scanned from a line whose name token carries
an exclamation mark is name-invalid, through the iff. -/
theorem c5_witness :
    (⟨"x!", "int", false, true⟩ : meta_field).name_valid = true ↔
      ((∀ c ∈ ("x!" : String).data, c ∉ ("!#@$%^&*()" : String).data)
        ∧ (∀ c, ("x!" : String).data.head? = some c
              → c ∉ ("1234567890" : String).data)
        ∧ ("x!" : String) ∉ valid_c_types) :=
  c5_name_valid_iff [] false ⟨"O", []⟩ "x! :: int\n"
    ⟨"x!", "int", false, true⟩ (by decide)

/-- C6: for a field produced by meta_parse_field from tokens nm and ty,
the emitter writes a live member line when both flags hold; whenever
type_valid is false (also when the name is invalid too) it writes the
unresolved-or-invalid-type line quoting the original type token ty;
and only in the remaining case (type valid, name invalid) the
special-characters-or-numbers line. -/
theorem c6_emission_cases (st : List meta_object) (lc : Bool)
    (obj : meta_object) (line : String) (nm ty : String) (f : meta_field)
    (hscan : scanField line = some (nm, ty))
    (happ : (meta_parse_field st lc obj line).1.fields = obj.fields ++ [f]) :
    (f.type_valid = true → f.name_valid = true →
        emitField f = OutLine.member f.type nm)
    ∧ (f.type_valid = false → emitField f = OutLine.errType ty nm ty)
    ∧ (f.type_valid = true → f.name_valid = false →
        emitField f = OutLine.errName f.type nm) := by
  obtain ⟨nm2, ty2, hscan2, hname, _, hres⟩ :=
    parse_field_new_field st lc obj line f happ
  rw [hscan] at hscan2
  simp only [Option.some.injEq, Prod.mk.injEq] at hscan2
  obtain ⟨hn, ht⟩ := hscan2
  rw [← hn] at hname
  rw [← ht] at hres
  refine ⟨?_, ?_, ?_⟩
  · intro htv hnv
    simp [emitField, htv, hnv, hname]
  · intro htv
    have hty : f.type = ty := by
      rcases hres with ⟨_, _, h⟩ | ⟨_, h, _⟩
      · rw [h] at htv; cases htv
      · exact h
    simp [emitField, htv, hname, hty]
  · intro htv hnv
    simp [emitField, htv, hnv, hname]

/-- C6 witness: a field with an unresolvable type gets the type
diagnostic quoting the original token. -/
theorem c6_witness :
    ((⟨"x", "Foo", true, false⟩ : meta_field).type_valid = true →
        (⟨"x", "Foo", true, false⟩ : meta_field).name_valid = true →
        emitField ⟨"x", "Foo", true, false⟩ = OutLine.member "Foo" "x")
    ∧ ((⟨"x", "Foo", true, false⟩ : meta_field).type_valid = false →
        emitField ⟨"x", "Foo", true, false⟩ = OutLine.errType "Foo" "x" "Foo")
    ∧ ((⟨"x", "Foo", true, false⟩ : meta_field).type_valid = true →
        (⟨"x", "Foo", true, false⟩ : meta_field).name_valid = false →
        emitField ⟨"x", "Foo", true, false⟩ = OutLine.errName "Foo" "x") :=
  c6_emission_cases [] false ⟨"O", []⟩ "x :: Foo\n" "x" "Foo"
    ⟨"x", "Foo", true, false⟩ (by decide) (by decide)

set_option maxRecDepth 4096 in
/-- C7 counterexample: a malformed, non-comment body line reaching an
object that already holds MAX_FIELDS fields does produce a diagnostic
(the capacity message is printed before tokenization is attempted), so
the unconditional no-diagnostic claim fails. -/
theorem c7_counterexample :
    scanField "oops\n" = none
    ∧ ("oops\n").data.head? ≠ some '#'
    ∧ (meta_parse_field [] false
          ⟨"Big", List.replicate 50 ⟨"a", "int", true, true⟩⟩ "oops\n").2.2
        = [Diag.fieldCountExceeded "Big"] := by
  decide

/-- C7 amended: a body line that does not start with the comment mark
and fails to tokenize into the two expected tokens is silently ignored
— no field, no state change, return value 0, no diagnostic — provided
the object has not already reached the MAX_FIELDS capacity (at
capacity, the capacity diagnostic fires before tokenization). -/
theorem c7_amended_malformed_silently_ignored (st : List meta_object)
    (lc : Bool) (obj : meta_object) (line : String)
    (hcap : obj.fields.length < MAX_FIELDS)
    (hh : line.data.head? ≠ some '#')
    (hscan : scanField line = none) :
    meta_parse_field st lc obj line = (obj, false, []) := by
  unfold meta_parse_field
  rw [if_neg hh, if_neg (by omega : ¬ MAX_FIELDS ≤ obj.fields.length), hscan]

/-- C7 witness: a single-token line inside a small object changes
nothing and logs nothing. -/
theorem c7_witness :
    meta_parse_field [] false ⟨"O", []⟩ "oops\n" = (⟨"O", []⟩, false, []) :=
  c7_amended_malformed_silently_ignored [] false ⟨"O", []⟩ "oops\n"
    (by decide) (by decide) (by decide)

/-- C8: meta_parse returns the failure indicator exactly when a stream
cannot be opened; for every input content and registry it otherwise
returns success — schema anomalies never reach the return status. -/
theorem c8_return_status (inF : Option (List String)) (outOpenable : Bool)
    (lc : Bool) (reg : List meta_object) :
    (meta_parse inF outOpenable lc reg).1 =
      (if inF = none ∨ outOpenable = false then -1 else 0) := by
  cases inF with
  | none => simp [meta_parse]
  | some lines =>
    cases outOpenable with
    | true => simp [meta_parse]
    | false => simp [meta_parse]

/-- C9: the djb2 hash table lookup of meta_is_valid_c_type is
extensionally equal to a linear scan of the valid_c_types list: no
entry is lost to bucket overflow and no foreign string is accepted. -/
theorem c9_hash_lookup_eq_linear_scan (s : String) :
    meta_is_valid_c_type s = linearScanValidCType s := by
  by_cases h : s ∈ valid_c_types
  · rw [(valid_c_type_iff s).mpr h]
    symm
    simpa [linearScanValidCType, List.contains, List.elem_iff] using h
  · rw [(valid_c_type_eq_false_iff s).mpr h]
    symm
    simpa [linearScanValidCType, List.contains, List.elem_iff] using h

set_option maxRecDepth 16384 in
/-- C10 counterexample: with the registry already holding MAX_FIELDS
objects, a 51st header still opens its object (the append failure is
not checked) but the object is not registered, so its own field typed
with its own name is marked invalid and emitted with the unresolved
diagnostic instead of the SelfData reference. -/
theorem c10_counterexample :
    ((meta_parse_lines false []
        (((List.range 50).map
            (fun i => "obj :: A" ++ toString i ++ " \x7b\n"))
          ++ ["obj :: Self \x7b\n", "me :: Self\n", "\x7d\n"])).out.contains
        (OutLine.errType "Self" "me" "Self") = true)
    ∧ ((meta_parse_lines false []
        (((List.range 50).map
            (fun i => "obj :: A" ++ toString i ++ " \x7b\n"))
          ++ ["obj :: Self \x7b\n", "me :: Self\n", "\x7d\n"])).out.contains
        (OutLine.member "SelfData" "me") = false)
    ∧ (meta_parse_lines false []
        (((List.range 50).map
            (fun i => "obj :: A" ++ toString i ++ " \x7b\n"))
          ++ ["obj :: Self \x7b\n", "me :: Self\n", "\x7d\n"])).log
        = [Diag.objectListFull] := by
  decide

/-- C10 amended: provided the registry has room (fewer than MAX_FIELDS
objects) when the header line is parsed, the object is appended to the
registry at header-parse time, and a subsequent field line of that
object whose type token equals the object name resolves valid, with
the stored type being the object name with the Data suffix (through
the 63-character snprintf buffer). -/
theorem c10_amended_self_reference (st : List meta_object) (line : String)
    (obj : meta_object) (st2 : List meta_object) (dgs : List Diag)
    (lc : Bool) (o2 : meta_object) (fline nm : String) (f : meta_field)
    (hcap : st.length < MAX_FIELDS)
    (hstart : meta_parse_object_start st line = (some obj, st2, dgs))
    (hscan : scanField fline = some (nm, obj.name))
    (happ : (meta_parse_field st2 lc o2 fline).1.fields = o2.fields ++ [f]) :
    f.type_valid = true ∧ f.type = take63 (obj.name ++ "Data") := by
  have hobj : meta_is_object_type st2 obj.name = true := by
    cases hso : scanObjStart line with
    | none => simp [meta_parse_object_start, hso] at hstart
    | some nm2 =>
      simp only [meta_parse_object_start, hso, meta_state_append,
        if_pos hcap, Prod.mk.injEq, Option.some.injEq] at hstart
      obtain ⟨hobj2, hst2, _⟩ := hstart
      rw [← hst2, ← hobj2, meta_is_object_type_iff]
      exact ⟨⟨nm2, []⟩, by simp, rfl⟩
  obtain ⟨nm2, ty2, hscan2, _, _, hres⟩ :=
    parse_field_new_field st2 lc o2 fline f happ
  rw [hscan] at hscan2
  simp only [Option.some.injEq, Prod.mk.injEq] at hscan2
  obtain ⟨hn, ht⟩ := hscan2
  rw [← ht] at hres
  rcases hres with ⟨_, hty, htv⟩ | ⟨hfalse, _, _⟩
  · exact ⟨htv, hty⟩
  · rw [hobj] at hfalse; cases hfalse

/-- C10 witness: from an empty registry, a Self object with a field
typed Self resolves to SelfData, type-valid. -/
theorem c10_witness :
    (⟨"me", "SelfData", true, true⟩ : meta_field).type_valid = true
    ∧ (⟨"me", "SelfData", true, true⟩ : meta_field).type
        = take63 ((⟨"Self", []⟩ : meta_object).name ++ "Data") :=
  c10_amended_self_reference [] "obj :: Self \x7b\n" ⟨"Self", []⟩
    [⟨"Self", []⟩] [] false ⟨"Self", []⟩ "me :: Self\n" "me"
    ⟨"me", "SelfData", true, true⟩ (by decide) (by decide) (by decide)
    (by decide)

end MetaGen
